import Mathlib

/-!
Shallow embedding of the Test Impact Analysis runtime core, translated from
`Code/Tools/TestImpactFramework/Runtime/Native/Code/Source/TestImpactNativeRuntime.cpp`
and
`Code/Tools/TestImpactFramework/Runtime/Common/Code/Include/Static/Target/Common/TestImpactTargetList.h`.
Components whose implementation files are outside the two sources above
(the dynamic dependency map operations, the exclude list, paths) are modelled
from the specification and say so in their doc comments.
-/

namespace TestImpact

/-- Client::TestRunResult: the result of a single test-target execution. -/
inductive TestRunResult
  | notRun
  | failedToExecute
  | timedOut
  | allTestsPass
  | testFailures
  deriving DecidableEq, Repr

/-- Policy::FailedTestCoverage: what to do with the coverage of a test run
that completed with failing tests. -/
inductive FailedTestCoverage
  | keep
  | discard
  deriving DecidableEq, Repr

/-- Policy::IntegrityFailure: whether integrity failures abort the sequence
or are logged and tolerated. -/
inductive IntegrityFailure
  | abort
  | continueOnFailure
  deriving DecidableEq, Repr

/-- Modelled from the spec: a repository path as its list of components
(the AZ path primitives are external file-I/O collaborators, out of the
core's scope per section 1 of the spec). -/
abbrev RepoPath := List String

/-- Modelled from the spec: RepoPath::IsRelativeTo, true when the root's
components are a leading run of the path's components. -/
def RepoPath.isRelativeTo : RepoPath → RepoPath → Bool
  | _, [] => true
  | [], _ :: _ => false
  | s :: ss, r :: rs => s == r && RepoPath.isRelativeTo ss rs

/-- Modelled from the spec: RepoPath::LexicallyRelative drops the root's
components from the front of the path. -/
def RepoPath.lexicallyRelative (src root : RepoPath) : RepoPath :=
  src.drop root.length

/-- Modelled from the spec: SourceCoveringTests is a pair of a source path
and the set of test-target names covering it (section 3). -/
structure SourceCoveringTests where
  path : RepoPath
  tests : List String
  deriving DecidableEq, Repr

/-- Modelled from the spec: the forward direction of the dynamic dependency
map, source path to the set of covering test-target names (sections 3, 4.4);
the inverse direction is determined by invariant I1 and left implicit. -/
abbrev DynamicDependencyMap := List (RepoPath × List String)

/-- Modelled from the spec: RemoveTestTargetFromSourceCoverage erases the
name from every forward-image set and drops source keys whose set becomes
empty (section 4.4). -/
def removeTestTargetFromSourceCoverage (m : DynamicDependencyMap) (t : String) :
    DynamicDependencyMap :=
  (m.map (fun p => (p.1, p.2.filter (fun n => n != t)))).filter
    (fun p => !p.2.isEmpty)

/-- Insertion into a set of names represented as a duplicate-free list
(AZStd::unordered_set::insert). -/
def insertName (ns : List String) (n : String) : List String :=
  if ns.contains n then ns else ns ++ [n]

/-- Modelled from the spec: ReplaceSourceCoverage merges one entry of the
covering list into the map, replacing the source's coverage so that the
entry's tests cover it afterward while other sources are untouched; the
end-to-end scenarios of section 8 pin the merge down as a union with the
coverage the prior steps left for that source. -/
def replaceOneSourceCoverage (m : DynamicDependencyMap) (s : RepoPath)
    (ts : List String) : DynamicDependencyMap :=
  match m with
  | [] => [(s, ts)]
  | (s', ts') :: rest =>
    if s' = s then
      (s', ts.foldl insertName ts') :: rest
    else
      (s', ts') :: replaceOneSourceCoverage rest s ts

/-- Modelled from the spec: ReplaceSourceCoverage folds a whole
SourceCoveringTestsList into the map (section 4.4). -/
def replaceSourceCoverage (m : DynamicDependencyMap)
    (l : List SourceCoveringTests) : DynamicDependencyMap :=
  l.foldl (fun acc e => replaceOneSourceCoverage acc e.path e.tests) m

/-- Modelled from the spec: ClearAllSourceCoverage empties both directions of
the map and does not touch the persisted file (section 4.4). -/
def clearAllSourceCoverage (_m : DynamicDependencyMap) : DynamicDependencyMap :=
  []

/-- Modelled from the spec: ExportSourceCoverage returns the current covering
list (section 4.4); ordering is deterministic in the representation. -/
def exportSourceCoverage (m : DynamicDependencyMap) : List SourceCoveringTests :=
  m.map (fun p => ⟨p.1, p.2⟩)

/-- Modelled from the spec: GetNotCoveringTests returns the test targets
whose inverse entry is absent or empty, in target-list order (section 4.4);
by invariant I1 those are the targets named in no forward-image set. -/
def getNotCoveringTests (targets : List String) (m : DynamicDependencyMap) :
    List String :=
  targets.filter (fun t => !(m.any (fun p => p.2.contains t)))

/-- True when some entry of the map names the test target `t`. -/
def ddmapReferences (m : DynamicDependencyMap) (t : String) : Bool :=
  m.any (fun p => p.2.contains t)

/-- TestEngineInstrumentedRun restricted to what coverage ingestion reads
from a job: its test target's name, its TestRunResult and its optional
coverage artifact (the list of covered source paths). -/
structure InstrumentedRunJob where
  target : String
  result : TestRunResult
  coverage : Option (List RepoPath)
  deriving DecidableEq, Repr

/-- The consolidation accumulator: the
`AZStd::unordered_map<AZStd::string, AZStd::unordered_set<AZStd::string>>`
of TestImpactNativeRuntime.cpp line 402, as an association list with
duplicate-free keys and name sets. -/
abbrev CoverageAccumulator := List (RepoPath × List String)

/-- `coverage[source.String()].insert(job target name)` of
TestImpactNativeRuntime.cpp line 442. -/
def addCoverage : CoverageAccumulator → RepoPath → String → CoverageAccumulator
  | [], src, n => [(src, [n])]
  | (s, ns) :: rest, src, n =>
    if s = src then (s, insertName ns n) :: rest
    else (s, ns) :: addCoverage rest src n

/-- One iteration of the job loop of CreateSourceCoveringTestFromTestCoverages
(TestImpactNativeRuntime.cpp lines 403-445). The job's target's existing
coverage is removed from the map first, regardless of outcome; then the job's
coverage is folded into the accumulator unless the failed-test-coverage policy
discards it, a passing job with no coverage artifact raising RuntimeException
(`none` in the second component; the map mutation persists) and a failing job
with no artifact being skipped. -/
def consolidateJob (failedTestCoveragePolicy : FailedTestCoverage)
    (m : DynamicDependencyMap) (acc : CoverageAccumulator)
    (job : InstrumentedRunJob) :
    DynamicDependencyMap × Option CoverageAccumulator :=
  let m' := removeTestTargetFromSourceCoverage m job.target
  if failedTestCoveragePolicy = .discard ∧ job.result = .testFailures then
    (m', some acc)
  else if job.result = .allTestsPass ∨ job.result = .testFailures then
    match job.coverage with
    | none =>
      if job.result = .allTestsPass then (m', none) else (m', some acc)
    | some sources =>
      (m', some (sources.foldl (fun a s => addCoverage a s job.target) acc))
  else
    (m', some acc)

/-- The job loop of CreateSourceCoveringTestFromTestCoverages
(TestImpactNativeRuntime.cpp lines 403-445): jobs are processed in job order;
a RuntimeException (`none`) stops the loop but the map mutations made so far
persist, the map being mutated through a pointer in the source. -/
def consolidateLoop (failedTestCoveragePolicy : FailedTestCoverage) :
    DynamicDependencyMap → CoverageAccumulator → List InstrumentedRunJob →
    DynamicDependencyMap × Option CoverageAccumulator
  | m, acc, [] => (m, some acc)
  | m, acc, job :: rest =>
    match consolidateJob failedTestCoveragePolicy m acc job with
    | (m', none) => (m', none)
    | (m', some acc') => consolidateLoop failedTestCoveragePolicy m' acc' rest

/-- The second loop of CreateSourceCoveringTestFromTestCoverages
(TestImpactNativeRuntime.cpp lines 447-462): a source inside the repo is
stored repo-relative; a source outside the repo is dropped with a warning. -/
def buildSourceCoveringTests (acc : CoverageAccumulator) (repoRoot : RepoPath) :
    List SourceCoveringTests :=
  match acc with
  | [] => []
  | (src, ns) :: rest =>
    if RepoPath.isRelativeTo src repoRoot then
      ⟨RepoPath.lexicallyRelative src repoRoot, ns⟩ ::
        buildSourceCoveringTests rest repoRoot
    else
      buildSourceCoveringTests rest repoRoot

/-- CreateSourceCoveringTestFromTestCoverages
(TestImpactNativeRuntime.cpp lines 396-465): prunes the existing coverage for
the jobs' targets and consolidates the jobs' artifacts into a covering list;
the first component is the map as mutated (also when the second component is
`none`, a RuntimeException). -/
def createSourceCoveringTestFromTestCoverages (m : DynamicDependencyMap)
    (jobs : List InstrumentedRunJob)
    (failedTestCoveragePolicy : FailedTestCoverage) (repoRoot : RepoPath) :
    DynamicDependencyMap × Option (List SourceCoveringTests) :=
  match consolidateLoop failedTestCoveragePolicy m [] jobs with
  | (m', none) => (m', none)
  | (m', some acc) => (m', some (buildSourceCoveringTests acc repoRoot))

/-- Outcome of UpdateAndSerializeDynamicDependencyMap: the map and persisted
file afterward, whether a RuntimeException escaped to the caller, and the
`AZStd::optional<bool>` return value when none did. -/
structure IngestOutcome where
  map : DynamicDependencyMap
  file : Option (List SourceCoveringTests)
  raised : Bool
  ret : Option Bool
  deriving DecidableEq, Repr

/-- UpdateAndSerializeDynamicDependencyMap
(TestImpactNativeRuntime.cpp lines 468-505): consolidates the jobs' coverage;
an empty consolidated list returns nullopt; otherwise the map coverage is
replaced, exported, serialized and written to the file, `writeOk = false`
standing for the external WriteFileContents raising RuntimeException. A
RuntimeException from consolidation or the write escapes iff the
integrity-failure policy is Abort, and is otherwise logged, nullopt being
returned. -/
def updateAndSerializeDynamicDependencyMap (m : DynamicDependencyMap)
    (file : Option (List SourceCoveringTests)) (jobs : List InstrumentedRunJob)
    (failedTestCoveragePolicy : FailedTestCoverage)
    (integrationFailurePolicy : IntegrityFailure) (repoRoot : RepoPath)
    (writeOk : Bool) : IngestOutcome :=
  match createSourceCoveringTestFromTestCoverages m jobs
      failedTestCoveragePolicy repoRoot with
  | (m', none) =>
    ⟨m', file, integrationFailurePolicy = .abort, none⟩
  | (m', some l) =>
    if l.isEmpty then
      ⟨m', file, false, none⟩
    else
      let m'' := replaceSourceCoverage m' l
      if writeOk then
        ⟨m'', some (exportSourceCoverage m''), false, some true⟩
      else
        ⟨m'', file, integrationFailurePolicy = .abort, none⟩

/-- Modelled from the spec: one entry of the exclude list, a test-target name
with its (possibly empty) set of excluded test-case filters (sections 3, 4.2). -/
structure ExcludedTarget where
  name : String
  excludedTests : List String
  deriving DecidableEq, Repr

/-- Modelled from the spec: IsTestTargetFullyExcluded is true iff the
target's name is listed with an empty or absent case-filter set
(section 4.2). -/
def isTestTargetFullyExcluded (excludeList : List ExcludedTarget)
    (t : String) : Bool :=
  excludeList.any (fun e => e.name == t && e.excludedTests.isEmpty)

/-- Modelled from the spec: SelectTestTargetsByExcludeList partitions a
target set into the subset not fully excluded and the subset fully excluded
(sections 2, 4.2; the orchestrator's call sites are
TestImpactNativeRuntime.cpp lines 641-642, 753-758). -/
def selectTestTargetsByExcludeList (excludeList : List ExcludedTarget)
    (targets : List String) : List String × List String :=
  (targets.filter (fun t => !isTestTargetFullyExcluded excludeList t),
   targets.filter (fun t => isTestTargetFullyExcluded excludeList t))

/-- The remaining-budget computation the sequences use when carrying a global
timeout over a completed phase:
`elapsed < globalTimeout ? globalTimeout - elapsed : 0ms`
(TestImpactNativeRuntime.cpp lines 201, 827, 840). -/
def remainingBudget (globalTimeout elapsed : Nat) : Nat :=
  if elapsed < globalTimeout then globalTimeout - elapsed else 0

/-- Which timeout each phase of ImpactAnalysisTestSequenceWrapper is invoked
with: `none` when the phase is skipped, `some t` when its test runner is
called with timeout `t` (`t = none` meaning no timeout). -/
structure ImpactWrapperRuns where
  selectedRun : Option (Option Nat)
  draftedRun : Option (Option Nat)
  finalSequenceTimeout : Option Nat
  deriving DecidableEq, Repr

/-- Timeout threading of ImpactAnalysisTestSequenceWrapper
(TestImpactNativeRuntime.cpp lines 161-209): `sequenceTimeout` starts as the
global timeout and is reassigned to the remaining budget after the selected
phase, but the `gatherTestRunData` lambda (lines 181-190) captures and passes
`globalTimeout` itself to the test runner for both phases, so the value the
drafted run receives is the unmodified global timeout; the reassigned
`sequenceTimeout` is never read again and is returned here only to record it.
`selectedDuration` is the measured duration of the selected run when it
happens. -/
def impactAnalysisWrapperRuns (globalTimeout : Option Nat)
    (hasIncludedSelected : Bool) (selectedDuration : Nat)
    (hasDrafted : Bool) : ImpactWrapperRuns :=
  let selectedRun := if hasIncludedSelected then some globalTimeout else none
  let sequenceTimeout :=
    if hasIncludedSelected then
      match globalTimeout with
      | some g => some (remainingBudget g selectedDuration)
      | none => none
    else
      globalTimeout
  let draftedRun := if hasDrafted then some globalTimeout else none
  ⟨selectedRun, draftedRun, sequenceTimeout⟩

/-- Which timeout each phase of SafeImpactAnalysisTestSequence is invoked
with, as for `ImpactWrapperRuns`. -/
structure SafeImpactRuns where
  selectedRun : Option (Option Nat)
  discardedRun : Option (Option Nat)
  draftedRun : Option (Option Nat)
  deriving DecidableEq, Repr

/-- Timeout threading of SafeImpactAnalysisTestSequence
(TestImpactNativeRuntime.cpp lines 744-848): the run functors capture
`sequenceTimeout` by reference, which starts as the global timeout and, after
the selected and discarded phases, is reassigned to the remaining budget
computed from the sum of the durations of the phases run so far (a phase that
does not run leaves its TestRunData duration at 0 ms). -/
def safeImpactAnalysisRuns (globalTimeout : Option Nat)
    (hasIncludedSelected : Bool) (selectedDuration : Nat)
    (hasIncludedDiscarded : Bool) (discardedDuration : Nat)
    (hasDrafted : Bool) : SafeImpactRuns :=
  let selDur := if hasIncludedSelected then selectedDuration else 0
  let discDur := if hasIncludedDiscarded then discardedDuration else 0
  let t0 := globalTimeout
  let selectedRun := if hasIncludedSelected then some t0 else none
  let t1 :=
    if hasIncludedSelected then
      match globalTimeout with
      | some g => some (remainingBudget g selDur)
      | none => none
    else
      t0
  let discardedRun := if hasIncludedDiscarded then some t1 else none
  let t2 :=
    if hasIncludedDiscarded then
      match globalTimeout with
      | some g => some (remainingBudget g (selDur + discDur))
      | none => none
    else
      t1
  let draftedRun := if hasDrafted then some t2 else none
  ⟨selectedRun, discardedRun, draftedRun⟩

/-- The phase target lists of ImpactAnalysisTestSequence: which targets the
selected run is invoked on, which the drafted run is invoked on, and which
targets are reported to the client (and the start callback) as discarded. -/
structure ImpactAnalysisPlan where
  selectedRunTargets : List String
  draftedRunTargets : List String
  reportedDiscarded : List String
  excludedSelected : List String
  deriving DecidableEq, Repr

/-- Target selection of ImpactAnalysisTestSequence
(TestImpactNativeRuntime.cpp lines 612-642 with lines 360-386 and the wrapper
lines 192-209): the drafted targets are GetNotCoveringTests, taken as-is; the
discarded targets are the test-target list minus the selector's output
(lines 377-383), then pruned of any drafted target (lines 624-635); the
selected targets are partitioned by the instrumented exclude list and only
the included part is run. `selectedTestTargets` is the output of the external
TestSelectorAndPrioritizer. -/
def impactAnalysisPlan (testTargetList : List String)
    (m : DynamicDependencyMap) (instrumentedExcludeList : List ExcludedTarget)
    (selectedTestTargets : List String) : ImpactAnalysisPlan :=
  let draftedTestTargets := getNotCoveringTests testTargetList m
  let discardedTestTargets :=
    testTargetList.filter (fun t => !selectedTestTargets.contains t)
  let discardedNotDraftedTestTargets :=
    discardedTestTargets.filter (fun t => !draftedTestTargets.contains t)
  let (includedSelected, excludedSelected) :=
    selectTestTargetsByExcludeList instrumentedExcludeList selectedTestTargets
  ⟨includedSelected, draftedTestTargets, discardedNotDraftedTestTargets,
    excludedSelected⟩

/-- The phase target lists of SafeImpactAnalysisTestSequence. -/
structure SafeImpactAnalysisPlan where
  selectedRunTargets : List String
  discardedRunTargets : List String
  draftedRunTargets : List String
  deriving DecidableEq, Repr

/-- Target selection of SafeImpactAnalysisTestSequence
(TestImpactNativeRuntime.cpp lines 741-848): the drafted targets are
GetNotCoveringTests, taken as-is and run instrumented; the selected targets
are partitioned by the instrumented exclude list and the discarded targets by
the regular exclude list, only the included parts being run. -/
def safeImpactAnalysisPlan (testTargetList : List String)
    (m : DynamicDependencyMap) (instrumentedExcludeList : List ExcludedTarget)
    (regularExcludeList : List ExcludedTarget)
    (selectedTestTargets : List String) : SafeImpactAnalysisPlan :=
  let draftedTestTargets := getNotCoveringTests testTargetList m
  let discardedTestTargets :=
    testTargetList.filter (fun t => !selectedTestTargets.contains t)
  let (includedSelected, _) :=
    selectTestTargetsByExcludeList instrumentedExcludeList selectedTestTargets
  let (includedDiscarded, _) :=
    selectTestTargetsByExcludeList regularExcludeList discardedTestTargets
  ⟨includedSelected, includedDiscarded, draftedTestTargets⟩

/-- The runtime state a seeded sequence touches: the dynamic dependency map,
the persisted SPAR-TIA file and the has-impact-analysis-data flag. -/
structure RuntimeState where
  map : DynamicDependencyMap
  file : Option (List SourceCoveringTests)
  hasImpactAnalysisData : Bool
  deriving DecidableEq, Repr

/-- NativeRuntime::ClearDynamicDependencyMapAndRemoveExistingFile
(TestImpactNativeRuntime.cpp lines 388-392): clears all source coverage and
deletes the persisted file. -/
def clearDynamicDependencyMapAndRemoveExistingFile (st : RuntimeState) :
    RuntimeState :=
  ⟨clearAllSourceCoverage st.map, none, st.hasImpactAnalysisData⟩

/-- Outcome of SeededTestSequence on the runtime state, plus whether a
RuntimeException escaped and the target list of its single instrumented
run. -/
structure SeededOutcome where
  state : RuntimeState
  raised : Bool
  runTargets : List String
  deriving DecidableEq, Repr

/-- The state effect of NativeRuntime::SeededTestSequence
(TestImpactNativeRuntime.cpp lines 893-966): the test-target list is
partitioned by the instrumented exclude list and the included part run in one
instrumented run (producing `jobs`); after the report, the map is cleared and
the persisted file removed, and only then is
UpdateAndSerializeDynamicDependencyMap fed this run's jobs, its return value
(when any) replacing the has-data flag. -/
def seededTestSequence (st : RuntimeState) (testTargetList : List String)
    (instrumentedExcludeList : List ExcludedTarget)
    (jobs : List InstrumentedRunJob)
    (failedTestCoveragePolicy : FailedTestCoverage)
    (integrationFailurePolicy : IntegrityFailure) (repoRoot : RepoPath)
    (writeOk : Bool) : SeededOutcome :=
  let (includedTestTargets, _) :=
    selectTestTargetsByExcludeList instrumentedExcludeList testTargetList
  let st' := clearDynamicDependencyMapAndRemoveExistingFile st
  let out := updateAndSerializeDynamicDependencyMap st'.map st'.file jobs
    failedTestCoveragePolicy integrationFailurePolicy repoRoot writeOk
  if out.raised then
    ⟨⟨out.map, out.file, st.hasImpactAnalysisData⟩, true, includedTestTargets⟩
  else
    ⟨⟨out.map, out.file, out.ret.getD st.hasImpactAnalysisData⟩, false,
      includedTestTargets⟩

/-- A target descriptor restricted to identity: a unique name
(Target::Descriptor::m_name, the only field the TargetList constructor
reads). -/
structure TargetDescriptor where
  m_name : String
  deriving DecidableEq, Repr

/-- A target constructed from its descriptor
(`Target(AZStd::move(descriptor))`, TestImpactTargetList.h line 76); identity
is the name. -/
structure Target where
  m_name : String
  deriving DecidableEq, Repr

/-- TargetException: invariant violation during target-list construction. -/
structure TargetException where
  message : String
  deriving DecidableEq, Repr

/-- The comparator AZStd::sort uses in the TargetList constructor
(TestImpactTargetList.h lines 57-62): `lhs->m_name < rhs->m_name`,
lexicographic comparison of the names' characters. -/
def descriptorNameLt (a b : TargetDescriptor) : Bool :=
  decide (a.m_name.data < b.m_name.data)

/-- Sorted insertion by `descriptorNameLt`. -/
def insertByName (d : TargetDescriptor) :
    List TargetDescriptor → List TargetDescriptor
  | [] => [d]
  | e :: es => if descriptorNameLt d e then d :: e :: es else e :: insertByName d es

/-- The AZStd::sort call of the TargetList constructor
(TestImpactTargetList.h lines 57-62); its observable behavior is a by-name
sorted permutation of the descriptors, embedded as insertion sort. -/
def sortDescriptorsByName : List TargetDescriptor → List TargetDescriptor
  | [] => []
  | d :: ds => insertByName d (sortDescriptorsByName ds)

/-- The AZStd::adjacent_find call of the TargetList constructor
(TestImpactTargetList.h lines 64-69): true iff two adjacent descriptors share
a name. -/
def hasAdjacentDuplicateNames : List TargetDescriptor → Bool
  | [] => false
  | [_] => false
  | d :: e :: rest =>
    d.m_name == e.m_name || hasAdjacentDuplicateNames (e :: rest)

/-- The TargetList constructor (TestImpactTargetList.h lines 52-78): rejects
an empty descriptor vector, sorts by name, rejects adjacent duplicate names,
and only then moves the descriptors into target objects, so on failure no
list exists. -/
def TargetList.make (descriptors : List TargetDescriptor) :
    Except TargetException (List Target) :=
  if descriptors.isEmpty then
    .error ⟨"Target list is empty"⟩
  else
    let sorted := sortDescriptorsByName descriptors
    if hasAdjacentDuplicateNames sorted then
      .error ⟨"Target list contains duplicate targets"⟩
    else
      .ok (sorted.map (fun d => ⟨d.m_name⟩))

/-- TargetList::GetTarget (TestImpactTargetList.h lines 92-118):
std::equal_range by name on the name-sorted, duplicate-free vector yields a
nonempty range iff some element carries the name, and then its first element
is the unique element carrying it — on such a vector that is the first
match. -/
def getTarget (targets : List Target) (name : String) : Option Target :=
  targets.find? (fun t => t.m_name == name)

/-- TargetList::GetTargetOrThrow (TestImpactTargetList.h lines 120-126). -/
def getTargetOrThrow (targets : List Target) (name : String) :
    Except TargetException Target :=
  match getTarget targets name with
  | some t => .ok t
  | none => .error ⟨"Couldn't find target " ++ name⟩

/-- TargetList::HasTarget (TestImpactTargetList.h lines 128-132). -/
def hasTarget (targets : List Target) (name : String) : Bool :=
  (getTarget targets name).isSome

/-! ## Theorems -/

/-- C1: at the spec's global-timeout scenario (the selected phase consumes
900 ms of a 1000 ms budget), ImpactAnalysisTestSequenceWrapper invokes the
drafted phase with the original 1000 ms global timeout, not the remaining
100 ms budget: the remaining budget is computed into `sequenceTimeout`
(TestImpactNativeRuntime.cpp line 201) but the drafted run reads the captured
`globalTimeout` (lines 181-190, 208). SafeImpactAnalysisTestSequence, which
passes `sequenceTimeout` by reference, hands the drafted phase the remaining
100 ms as the spec describes. -/
theorem impactAnalysis_drafted_timeout_bug :
    (impactAnalysisWrapperRuns (some 1000) true 900 true).draftedRun
        = some (some 1000)
    ∧ (impactAnalysisWrapperRuns (some 1000) true 900 true).finalSequenceTimeout
        = some 100
    ∧ remainingBudget 1000 900 = 100
    ∧ (safeImpactAnalysisRuns (some 1000) true 900 false 0 true).draftedRun
        = some (some 100) := by
  decide

/-- C2: counterexample — ingestion does not leave the dynamic dependency map
unchanged when a RuntimeException is logged instead of raised, nor when the
consolidated list is empty: starting from a map where `a.cpp` is covered by
`T1`, a batch whose only job is a passing `T1` run with no coverage artifact
raises inside consolidation after `T1`'s coverage was already removed (with
the Continue policy the exception is only logged, yet the map lost the
entry); a batch whose only job is a failing `T1` run with no artifact
consolidates to an empty list, returns "no data", and the map has still lost
`T1`'s coverage. -/
theorem updateAndSerialize_map_changes_counterexample :
    ((updateAndSerializeDynamicDependencyMap [(["a.cpp"], ["T1"])]
        (some [⟨["a.cpp"], ["T1"]⟩]) [⟨"T1", .allTestsPass, none⟩]
        .keep .continueOnFailure [] true).raised = false
      ∧ (updateAndSerializeDynamicDependencyMap [(["a.cpp"], ["T1"])]
          (some [⟨["a.cpp"], ["T1"]⟩]) [⟨"T1", .allTestsPass, none⟩]
          .keep .continueOnFailure [] true).map ≠ [(["a.cpp"], ["T1"])])
    ∧ ((updateAndSerializeDynamicDependencyMap [(["a.cpp"], ["T1"])]
        (some [⟨["a.cpp"], ["T1"]⟩]) [⟨"T1", .testFailures, none⟩]
        .keep .continueOnFailure [] true).ret = none
      ∧ (updateAndSerializeDynamicDependencyMap [(["a.cpp"], ["T1"])]
          (some [⟨["a.cpp"], ["T1"]⟩]) [⟨"T1", .testFailures, none⟩]
          .keep .continueOnFailure [] true).map ≠ [(["a.cpp"], ["T1"])]) := by
  decide

/-- Membership in `insertName`. -/
theorem mem_insertName {ns : List String} {n x : String} :
    x ∈ insertName ns n ↔ x ∈ ns ∨ x = n := by
  unfold insertName
  split
  · rename_i h
    constructor
    · exact Or.inl
    · rintro (hx | rfl)
      · exact hx
      · exact List.elem_iff.mp h
  · simp

/-- A name outside both lists stays outside their `insertName` fold. -/
theorem not_mem_foldl_insertName {ts' ts : List String} {t : String}
    (h1 : t ∉ ts') (h2 : t ∉ ts) : t ∉ ts.foldl insertName ts' := by
  induction ts generalizing ts' with
  | nil => exact h1
  | cons s rest ih =>
    rw [List.foldl_cons]
    refine ih ?_ ?_
    · intro hmem
      rcases mem_insertName.mp hmem with h | rfl
      · exact h1 h
      · exact h2 (List.mem_cons_self _ _)
    · intro hmem
      exact h2 (List.mem_cons_of_mem _ hmem)

/-- A target the map does not reference is not in any entry's set. -/
theorem not_mem_of_ddmapReferences_false {m : DynamicDependencyMap}
    {t : String} (h : ddmapReferences m t = false)
    {p : RepoPath × List String} (hp : p ∈ m) : t ∉ p.2 := by
  rw [ddmapReferences, List.any_eq_false] at h
  intro hmem
  exact h p hp (List.elem_iff.mpr hmem)

/-- The map component of one consolidation step is always the map with the
job's target's existing coverage removed, whatever the job's outcome and the
policy. -/
theorem consolidateJob_map (pol : FailedTestCoverage)
    (m : DynamicDependencyMap) (acc : CoverageAccumulator)
    (j : InstrumentedRunJob) :
    (consolidateJob pol m acc j).1
      = removeTestTargetFromSourceCoverage m j.target := by
  rcases j with ⟨t, r, c⟩
  rcases c with _ | sources <;>
    · rw [consolidateJob]
      dsimp only
      repeat' split
      all_goals rfl

/-- Removing a target's coverage leaves no reference to it in the map. -/
theorem ddmapReferences_remove_self (m : DynamicDependencyMap) (t : String) :
    ddmapReferences (removeTestTargetFromSourceCoverage m t) t = false := by
  simp only [ddmapReferences, List.any_eq_false]
  intro p hp
  rw [removeTestTargetFromSourceCoverage, List.mem_filter] at hp
  rcases List.mem_map.mp hp.1 with ⟨q, hq, rfl⟩
  intro hc
  have hmem := List.elem_iff.mp hc
  rw [List.mem_filter] at hmem
  simp at hmem

/-- Removing any target's coverage introduces no reference to another. -/
theorem ddmapReferences_remove_of_not (m : DynamicDependencyMap)
    (t u : String) (h : ddmapReferences m t = false) :
    ddmapReferences (removeTestTargetFromSourceCoverage m u) t = false := by
  simp only [ddmapReferences, List.any_eq_false] at h ⊢
  intro p hp
  rw [removeTestTargetFromSourceCoverage, List.mem_filter] at hp
  rcases List.mem_map.mp hp.1 with ⟨q, hq, rfl⟩
  intro hc
  have hmem := List.elem_iff.mp hc
  rw [List.mem_filter] at hmem
  exact h q hq (List.elem_iff.mpr hmem.1)

/-- `addCoverage` introduces no reference to a name other than the one it
adds. -/
theorem ddmapReferences_addCoverage (acc : CoverageAccumulator) (s : RepoPath)
    (n t : String) (hn : n ≠ t) (h : ddmapReferences acc t = false) :
    ddmapReferences (addCoverage acc s n) t = false := by
  induction acc with
  | nil =>
    simp only [addCoverage, ddmapReferences, List.any_eq_false]
    intro p hp
    rw [List.mem_singleton] at hp
    subst hp
    intro hc
    have := List.elem_iff.mp hc
    rw [List.mem_singleton] at this
    exact hn this.symm
  | cons p rest ih =>
    rcases p with ⟨ps, pns⟩
    simp only [ddmapReferences, List.any_cons, Bool.or_eq_false_iff] at h
    rw [addCoverage]
    split
    · simp only [ddmapReferences, List.any_cons, Bool.or_eq_false_iff]
      refine ⟨?_, h.2⟩
      rcases hc : (insertName pns n).contains t with _ | _
      · rfl
      · have := List.elem_iff.mp hc
        rcases mem_insertName.mp this with hmem | rfl
        · have : pns.contains t = true := List.elem_iff.mpr hmem
          rw [h.1] at this
          cases this
        · exact absurd rfl hn
    · simp only [ddmapReferences, List.any_cons, Bool.or_eq_false_iff]
      exact ⟨h.1, ih h.2⟩

/-- Folding a job's covered sources into the accumulator introduces no
reference to a name other than the job's target. -/
theorem ddmapReferences_foldl_addCoverage (sources : List RepoPath)
    (acc : CoverageAccumulator) (n t : String) (hn : n ≠ t)
    (h : ddmapReferences acc t = false) :
    ddmapReferences (sources.foldl (fun a s => addCoverage a s n) acc) t
      = false := by
  induction sources generalizing acc with
  | nil => exact h
  | cons s rest ih =>
    rw [List.foldl_cons]
    exact ih _ (ddmapReferences_addCoverage acc s n t hn h)

/-- One consolidation step of a batch whose jobs for target `t` all failed,
under the Discard policy, adds no reference to `t` to the accumulator. -/
theorem consolidateJob_acc_preserves (pol : FailedTestCoverage)
    (m : DynamicDependencyMap) (acc : CoverageAccumulator)
    (j : InstrumentedRunJob) (t : String) (hpol : pol = .discard)
    (hj : j.target = t → j.result = .testFailures)
    (h : ddmapReferences acc t = false) :
    ∀ acc', (consolidateJob pol m acc j).2 = some acc' →
      ddmapReferences acc' t = false := by
  intro acc' h2
  rcases j with ⟨jt, jr, jc⟩
  subst hpol
  by_cases hjt : jt = t
  · subst hjt
    have hr : jr = .testFailures := hj rfl
    subst hr
    rw [consolidateJob] at h2
    simp at h2
    subst h2
    exact h
  · rcases jr with _ | _ | _ | _ | _
    · rw [consolidateJob] at h2
      simp at h2
      subst h2
      exact h
    · rw [consolidateJob] at h2
      simp at h2
      subst h2
      exact h
    · rw [consolidateJob] at h2
      simp at h2
      subst h2
      exact h
    · rcases jc with _ | sources
      · rw [consolidateJob] at h2
        simp at h2
      · rw [consolidateJob] at h2
        simp at h2
        subst h2
        exact ddmapReferences_foldl_addCoverage sources acc jt t hjt h
    · rw [consolidateJob] at h2
      simp at h2
      subst h2
      exact h

/-- The consolidation loop of a batch whose jobs for target `t` all failed,
under the Discard policy, preserves the absence of references to `t` in both
the map and the accumulator. -/
theorem consolidateLoop_preserves (pol : FailedTestCoverage) (t : String) :
    ∀ (jobs : List InstrumentedRunJob) (m : DynamicDependencyMap)
      (acc : CoverageAccumulator), pol = .discard →
    (∀ j ∈ jobs, j.target = t → j.result = .testFailures) →
    ddmapReferences m t = false → ddmapReferences acc t = false →
    ∀ m' acc', consolidateLoop pol m acc jobs = (m', some acc') →
      ddmapReferences m' t = false ∧ ddmapReferences acc' t = false := by
  intro jobs
  induction jobs with
  | nil =>
    intro m acc _ _ hm hacc m' acc' h
    rw [consolidateLoop] at h
    injection h with h1 h2
    subst h1
    injection h2 with h2
    subst h2
    exact ⟨hm, hacc⟩
  | cons j rest ih =>
    intro m acc hpol hall hm hacc m' acc' h
    rw [consolidateLoop] at h
    rcases hstep : consolidateJob pol m acc j with ⟨m1, r1⟩
    rw [hstep] at h
    rcases r1 with _ | acc1
    · dsimp only at h
      injection h with h1 h2
      cases h2
    · dsimp only at h
      have hm1 : ddmapReferences m1 t = false := by
        have hmap := consolidateJob_map pol m acc j
        rw [hstep] at hmap
        dsimp only at hmap
        rw [hmap]
        exact ddmapReferences_remove_of_not m t j.target hm
      have hacc1 : ddmapReferences acc1 t = false := by
        refine consolidateJob_acc_preserves pol m acc j t hpol
          (hall j (List.mem_cons_self _ _)) hacc acc1 ?_
        rw [hstep]
      exact ih m1 acc1 hpol (fun j' hj' => hall j' (List.mem_cons_of_mem _ hj'))
        hm1 hacc1 m' acc' h

/-- A batch that contains a job for target `t`, all of whose jobs for `t`
failed, consolidated under the Discard policy to completion, leaves neither
the map nor the accumulator referencing `t`. -/
theorem consolidateLoop_removes (pol : FailedTestCoverage) (t : String) :
    ∀ (jobs : List InstrumentedRunJob) (m : DynamicDependencyMap)
      (acc : CoverageAccumulator), pol = .discard →
    (∃ j ∈ jobs, j.target = t) →
    (∀ j ∈ jobs, j.target = t → j.result = .testFailures) →
    ddmapReferences acc t = false →
    ∀ m' acc', consolidateLoop pol m acc jobs = (m', some acc') →
      ddmapReferences m' t = false ∧ ddmapReferences acc' t = false := by
  intro jobs
  induction jobs with
  | nil =>
    rintro m acc _ ⟨j, hj, -⟩
    simp at hj
  | cons j rest ih =>
    intro m acc hpol hex hall hacc m' acc' h
    rw [consolidateLoop] at h
    rcases hstep : consolidateJob pol m acc j with ⟨m1, r1⟩
    rw [hstep] at h
    rcases r1 with _ | acc1
    · dsimp only at h
      injection h with h1 h2
      cases h2
    · dsimp only at h
      have hacc1 : ddmapReferences acc1 t = false := by
        refine consolidateJob_acc_preserves pol m acc j t hpol
          (hall j (List.mem_cons_self _ _)) hacc acc1 ?_
        rw [hstep]
      by_cases hjt : j.target = t
      · have hm1 : ddmapReferences m1 t = false := by
          have hmap := consolidateJob_map pol m acc j
          rw [hstep] at hmap
          dsimp only at hmap
          rw [hmap, hjt]
          exact ddmapReferences_remove_self m t
        exact consolidateLoop_preserves pol t rest m1 acc1 hpol
          (fun j' hj' => hall j' (List.mem_cons_of_mem _ hj')) hm1 hacc1
          m' acc' h
      · rcases hex with ⟨j0, hj0, hj0t⟩
        rcases List.mem_cons.mp hj0 with rfl | hj0rest
        · exact absurd hj0t hjt
        · exact ih m1 acc1 hpol ⟨j0, hj0rest, hj0t⟩
            (fun j' hj' => hall j' (List.mem_cons_of_mem _ hj')) hacc1
            m' acc' h

/-- Every entry of the relativized covering list is an accumulator entry
whose source is inside the repo, stored repo-relative with its name set
unchanged. -/
theorem buildSourceCoveringTests_mem (acc : CoverageAccumulator)
    (root : RepoPath) :
    ∀ e ∈ buildSourceCoveringTests acc root,
      ∃ src, (src, e.tests) ∈ acc ∧ RepoPath.isRelativeTo src root = true ∧
        e.path = RepoPath.lexicallyRelative src root := by
  induction acc with
  | nil =>
    intro e he
    simp [buildSourceCoveringTests] at he
  | cons p rest ih =>
    rcases p with ⟨src, ns⟩
    intro e he
    rw [buildSourceCoveringTests] at he
    split at he
    · rcases List.mem_cons.mp he with rfl | hrest
      · rename_i hrel
        exact ⟨src, List.mem_cons_self _ _, hrel, rfl⟩
      · rcases ih e hrest with ⟨src', hsrc', hrel', hpath'⟩
        exact ⟨src', List.mem_cons_of_mem _ hsrc', hrel', hpath'⟩
    · rcases ih e he with ⟨src', hsrc', hrel', hpath'⟩
      exact ⟨src', List.mem_cons_of_mem _ hsrc', hrel', hpath'⟩

/-- Replacing one source's coverage with a set not containing `t` preserves
the absence of references to `t`. -/
theorem ddmapReferences_replaceOne (m : DynamicDependencyMap) (s : RepoPath)
    (ts : List String) (t : String) (hm : ddmapReferences m t = false)
    (hts : t ∉ ts) :
    ddmapReferences (replaceOneSourceCoverage m s ts) t = false := by
  induction m with
  | nil =>
    simp only [replaceOneSourceCoverage, ddmapReferences, List.any_eq_false]
    intro p hp
    rw [List.mem_singleton] at hp
    subst hp
    intro hc
    exact hts (List.elem_iff.mp hc)
  | cons p rest ih =>
    rcases p with ⟨ps, pns⟩
    simp only [ddmapReferences, List.any_cons, Bool.or_eq_false_iff] at hm
    rw [replaceOneSourceCoverage]
    split
    · simp only [ddmapReferences, List.any_cons, Bool.or_eq_false_iff]
      refine ⟨?_, hm.2⟩
      rcases hc : (ts.foldl insertName pns).contains t with _ | _
      · rfl
      · have hmem := List.elem_iff.mp hc
        have hpns : t ∉ pns := by
          intro hx
          have : pns.contains t = true := List.elem_iff.mpr hx
          rw [hm.1] at this
          cases this
        exact absurd hmem (not_mem_foldl_insertName hpns hts)
    · simp only [ddmapReferences, List.any_cons, Bool.or_eq_false_iff]
      exact ⟨hm.1, ih hm.2⟩

/-- Replacing the coverage of a list of sources with sets not containing `t`
preserves the absence of references to `t`. -/
theorem ddmapReferences_replace (l : List SourceCoveringTests) :
    ∀ (m : DynamicDependencyMap) (t : String), ddmapReferences m t = false →
    (∀ e ∈ l, t ∉ e.tests) →
    ddmapReferences (replaceSourceCoverage m l) t = false := by
  induction l with
  | nil =>
    intro m t hm _
    exact hm
  | cons e rest ih =>
    intro m t hm hl
    show ddmapReferences
      (replaceSourceCoverage (replaceOneSourceCoverage m e.path e.tests) rest)
      t = false
    exact ih _ t
      (ddmapReferences_replaceOne m e.path e.tests t hm
        (hl e (List.mem_cons_self _ _)))
      (fun e' he' => hl e' (List.mem_cons_of_mem _ he'))

/-- A passing job with no coverage artifact makes the consolidation step
raise (after the removal). -/
theorem consolidateJob_pass_no_artifact (pol : FailedTestCoverage)
    (m : DynamicDependencyMap) (acc : CoverageAccumulator)
    (j : InstrumentedRunJob) (h1 : j.result = .allTestsPass)
    (h2 : j.coverage = none) :
    consolidateJob pol m acc j
      = (removeTestTargetFromSourceCoverage m j.target, none) := by
  rcases j with ⟨t, r, c⟩
  dsimp only at h1 h2
  subst h1
  subst h2
  rw [consolidateJob]
  simp

/-- A failing job with no coverage artifact is skipped by the consolidation
step without error, only the removal taking effect. -/
theorem consolidateJob_failures_no_artifact (pol : FailedTestCoverage)
    (m : DynamicDependencyMap) (acc : CoverageAccumulator)
    (j : InstrumentedRunJob) (h1 : j.result = .testFailures)
    (h2 : j.coverage = none) :
    consolidateJob pol m acc j
      = (removeTestTargetFromSourceCoverage m j.target, some acc) := by
  rcases j with ⟨t, r, c⟩
  dsimp only at h1 h2
  subst h1
  subst h2
  rw [consolidateJob]
  rcases pol with _ | _ <;> simp

/-- A batch containing a passing job with no coverage artifact always makes
the consolidation loop raise. -/
theorem consolidateLoop_pass_no_artifact (pol : FailedTestCoverage) :
    ∀ (jobs : List InstrumentedRunJob) (m : DynamicDependencyMap)
      (acc : CoverageAccumulator),
      (∃ j ∈ jobs, j.result = .allTestsPass ∧ j.coverage = none) →
      (consolidateLoop pol m acc jobs).2 = none := by
  intro jobs
  induction jobs with
  | nil =>
    rintro m acc ⟨j, hj, -⟩
    simp at hj
  | cons j rest ih =>
    rintro m acc ⟨j0, hj0, h1, h2⟩
    rw [consolidateLoop]
    rcases List.mem_cons.mp hj0 with rfl | hj0rest
    · rw [consolidateJob_pass_no_artifact pol m acc j0 h1 h2]
    · rcases hstep : consolidateJob pol m acc j with ⟨m1, r1⟩
      rcases r1 with _ | acc1
      · rfl
      · dsimp only
        exact ih m1 acc1 ⟨j0, hj0rest, h1, h2⟩

/-- C3: during coverage consolidation, a batch containing a job whose result
is AllTestsPass but which carries no coverage artifact makes consolidation
fail with a RuntimeException (for any policy and starting map), while a job
whose result is TestFailures with no coverage artifact is skipped by its
consolidation step without error, contributing no coverage — only the
unconditional removal of its target's prior coverage takes effect. -/
theorem consolidation_missing_artifact_policy (pol : FailedTestCoverage)
    (m0 : DynamicDependencyMap) (jobs : List InstrumentedRunJob)
    (root : RepoPath) :
    ((∃ j ∈ jobs, j.result = .allTestsPass ∧ j.coverage = none) →
      (createSourceCoveringTestFromTestCoverages m0 jobs pol root).2 = none)
    ∧ (∀ (m : DynamicDependencyMap) (acc : CoverageAccumulator)
        (j : InstrumentedRunJob),
        j.result = .testFailures → j.coverage = none →
        consolidateJob pol m acc j
          = (removeTestTargetFromSourceCoverage m j.target, some acc)) := by
  constructor
  · intro hex
    have := consolidateLoop_pass_no_artifact pol jobs m0 [] hex
    rw [createSourceCoveringTestFromTestCoverages]
    rcases hloop : consolidateLoop pol m0 [] jobs with ⟨m1, r1⟩
    rw [hloop] at this
    dsimp only at this
    subst this
    rfl
  · intro m acc j h1 h2
    exact consolidateJob_failures_no_artifact pol m acc j h1 h2

/-- C4: during coverage consolidation every job's target's existing coverage
is removed from the map regardless of the job's outcome; and when the
failed-test-coverage policy is Discard and every job for target `t` in the
batch reports TestFailures (with at least one such job present), after the
whole ingestion — consolidation, optional replacement and persistence — the
resulting dynamic dependency map contains no entry referencing `t`. -/
theorem consolidation_removes_and_discards_target
    (covPol : FailedTestCoverage) (intPol : IntegrityFailure)
    (m0 : DynamicDependencyMap) (file0 : Option (List SourceCoveringTests))
    (jobs : List InstrumentedRunJob) (root : RepoPath) (writeOk : Bool)
    (t : String) (hpol : covPol = .discard)
    (hmem : ∃ j ∈ jobs, j.target = t)
    (hfail : ∀ j ∈ jobs, j.target = t → j.result = .testFailures)
    (hok : (consolidateLoop covPol m0 [] jobs).2 ≠ none) :
    (∀ (pol : FailedTestCoverage) (m : DynamicDependencyMap)
        (acc : CoverageAccumulator) (j : InstrumentedRunJob),
        (consolidateJob pol m acc j).1
          = removeTestTargetFromSourceCoverage m j.target)
    ∧ ddmapReferences
        (updateAndSerializeDynamicDependencyMap m0 file0 jobs covPol intPol
          root writeOk).map t = false := by
  refine ⟨consolidateJob_map, ?_⟩
  rcases hloop : consolidateLoop covPol m0 [] jobs with ⟨m1, r1⟩
  rcases r1 with _ | acc1
  · rw [hloop] at hok
    exact absurd rfl hok
  · have hmain := consolidateLoop_removes covPol t jobs m0 [] hpol hmem hfail
      (by rfl) m1 acc1 hloop
    have hcreate : createSourceCoveringTestFromTestCoverages m0 jobs covPol
        root = (m1, some (buildSourceCoveringTests acc1 root)) := by
      rw [createSourceCoveringTestFromTestCoverages, hloop]
    have htests : ∀ e ∈ buildSourceCoveringTests acc1 root, t ∉ e.tests := by
      intro e he
      rcases buildSourceCoveringTests_mem acc1 root e he with ⟨src, hsrc, -, -⟩
      exact not_mem_of_ddmapReferences_false hmain.2 hsrc
    rw [updateAndSerializeDynamicDependencyMap, hcreate]
    dsimp only
    split
    · exact hmain.1
    · split
      · exact ddmapReferences_replace _ m1 t hmain.1 htests
      · exact ddmapReferences_replace _ m1 t hmain.1 htests

/-- C4 witness: the spec's failure-discard scenario — starting from the map
where `a.cpp` is covered by `T1` and `b.cpp`, `c.cpp` by `T2`, ingesting a
batch whose only job is a failing `T1` run under the Discard policy leaves a
map with no entry referencing `T1`. -/
theorem consolidation_removes_and_discards_target_witness :
    (∀ (pol : FailedTestCoverage) (m : DynamicDependencyMap)
        (acc : CoverageAccumulator) (j : InstrumentedRunJob),
        (consolidateJob pol m acc j).1
          = removeTestTargetFromSourceCoverage m j.target)
    ∧ ddmapReferences
        (updateAndSerializeDynamicDependencyMap
          [(["a.cpp"], ["T1"]), (["b.cpp"], ["T2"]), (["c.cpp"], ["T2"])]
          (some [⟨["a.cpp"], ["T1"]⟩, ⟨["b.cpp"], ["T2"]⟩,
            ⟨["c.cpp"], ["T2"]⟩])
          [⟨"T1", .testFailures, some [["a.cpp"]]⟩] .discard .abort [] true).map
        "T1" = false :=
  consolidation_removes_and_discards_target .discard .abort
    [(["a.cpp"], ["T1"]), (["b.cpp"], ["T2"]), (["c.cpp"], ["T2"])]
    (some [⟨["a.cpp"], ["T1"]⟩, ⟨["b.cpp"], ["T2"]⟩, ⟨["c.cpp"], ["T2"]⟩])
    [⟨"T1", .testFailures, some [["a.cpp"]]⟩] [] true "T1" rfl
    (by decide) (by decide) (by decide)

/-- The relativization loop is the filter of the in-repo accumulator entries
mapped to their repo-relative form. -/
theorem buildSourceCoveringTests_eq_filterMap (acc : CoverageAccumulator)
    (root : RepoPath) :
    buildSourceCoveringTests acc root =
      (acc.filter (fun p => RepoPath.isRelativeTo p.1 root)).map
        (fun p => ⟨RepoPath.lexicallyRelative p.1 root, p.2⟩) := by
  induction acc with
  | nil => rfl
  | cons p rest ih =>
    rcases p with ⟨src, ns⟩
    rw [buildSourceCoveringTests]
    split
    · rename_i hrel
      simp [List.filter_cons, hrel, ih]
    · rename_i hrel
      rw [Bool.not_eq_true] at hrel
      simp [List.filter_cons, hrel, ih]

/-- A key of `addCoverage`'s output is a key of its input or the added
source. -/
theorem addCoverage_key_mem (acc : CoverageAccumulator) (s : RepoPath)
    (n : String) :
    ∀ src ts, (src, ts) ∈ addCoverage acc s n →
      (∃ ts0, (src, ts0) ∈ acc) ∨ src = s := by
  induction acc with
  | nil =>
    intro src ts h
    rw [addCoverage, List.mem_singleton] at h
    injection h with h1 h2
    exact Or.inr h1
  | cons p rest ih =>
    rcases p with ⟨ps, pns⟩
    intro src ts h
    rw [addCoverage] at h
    split at h
    · rcases List.mem_cons.mp h with heq | hrest
      · injection heq with h1 h2
        rename_i hps
        exact Or.inr (h1.trans hps)
      · exact Or.inl ⟨ts, List.mem_cons_of_mem _ hrest⟩
    · rcases List.mem_cons.mp h with heq | hrest
      · injection heq with h1 h2
        subst h1
        subst h2
        exact Or.inl ⟨ts, List.mem_cons_self _ _⟩
      · rcases ih src ts hrest with ⟨ts0, h0⟩ | heq
        · exact Or.inl ⟨ts0, List.mem_cons_of_mem _ h0⟩
        · exact Or.inr heq

/-- A key of the fold of `addCoverage` over a job's sources is a key of the
initial accumulator or one of the job's covered sources. -/
theorem foldl_addCoverage_key_mem (sources : List RepoPath) (n : String) :
    ∀ (acc : CoverageAccumulator) src ts,
      (src, ts) ∈ sources.foldl (fun a s => addCoverage a s n) acc →
      (∃ ts0, (src, ts0) ∈ acc) ∨ src ∈ sources := by
  induction sources with
  | nil =>
    intro acc src ts h
    exact Or.inl ⟨ts, h⟩
  | cons s rest ih =>
    intro acc src ts h
    rw [List.foldl_cons] at h
    rcases ih _ src ts h with ⟨ts0, h0⟩ | hmem
    · rcases addCoverage_key_mem acc s n src ts0 h0 with h1 | rfl
      · exact Or.inl h1
      · exact Or.inr (List.mem_cons_self _ _)
    · exact Or.inr (List.mem_cons_of_mem _ hmem)

/-- A consolidation step that does not raise leaves the accumulator alone or
folds the job's covered sources into it. -/
theorem consolidateJob_snd_cases (pol : FailedTestCoverage)
    (m : DynamicDependencyMap) (acc : CoverageAccumulator)
    (j : InstrumentedRunJob) (acc' : CoverageAccumulator)
    (h : (consolidateJob pol m acc j).2 = some acc') :
    acc' = acc ∨ ∃ sources, j.coverage = some sources ∧
      acc' = sources.foldl (fun a s => addCoverage a s j.target) acc := by
  rcases j with ⟨jt, jr, jc⟩
  rcases pol with _ | _ <;> rcases jc with _ | sources <;>
      rcases jr with _ | _ | _ | _ | _ <;>
      rw [consolidateJob] at h <;> simp at h <;>
      first
        | exact Or.inl h.symm
        | exact Or.inl h
        | exact Or.inr ⟨sources, rfl, h.symm⟩

/-- A key of the accumulator a completed consolidation loop produces is a key
of the initial accumulator or a source covered by one of the batch's jobs. -/
theorem consolidateLoop_acc_key_mem (pol : FailedTestCoverage) :
    ∀ (jobs : List InstrumentedRunJob) (m : DynamicDependencyMap)
      (acc : CoverageAccumulator) m' acc',
      consolidateLoop pol m acc jobs = (m', some acc') →
      ∀ src ts, (src, ts) ∈ acc' → (∃ ts0, (src, ts0) ∈ acc)
        ∨ ∃ j ∈ jobs, ∃ cov, j.coverage = some cov ∧ src ∈ cov := by
  intro jobs
  induction jobs with
  | nil =>
    intro m acc m' acc' h src ts hmem
    rw [consolidateLoop] at h
    injection h with h1 h2
    injection h2 with h2
    subst h2
    exact Or.inl ⟨ts, hmem⟩
  | cons j rest ih =>
    intro m acc m' acc' h src ts hmem
    rw [consolidateLoop] at h
    rcases hstep : consolidateJob pol m acc j with ⟨m1, r1⟩
    rw [hstep] at h
    rcases r1 with _ | acc1
    · dsimp only at h
      injection h with h1 h2
      cases h2
    · dsimp only at h
      rcases ih m1 acc1 m' acc' h src ts hmem with ⟨ts0, h0⟩ | ⟨j', hj', hcov⟩
      · rcases consolidateJob_snd_cases pol m acc j acc1 (by rw [hstep]) with
          rfl | ⟨sources, hcov, rfl⟩
        · exact Or.inl ⟨ts0, h0⟩
        · rcases foldl_addCoverage_key_mem sources j.target acc src ts0 h0 with
            h1 | hsrc
          · exact Or.inl h1
          · exact Or.inr ⟨j, List.mem_cons_self _ _, sources, hcov, hsrc⟩
      · exact Or.inr ⟨j', List.mem_cons_of_mem _ hj', hcov⟩

/-- C5: every entry of the consolidated covering list originates from an
in-repo source covered by one of the batch's instrumented jobs and is stored
as that source's repo-relative path, so out-of-repo covered sources are never
stored; and the relativization pass is exactly the filter of the in-repo
accumulator entries mapped to repo-relative form (out-of-repo entries being
dropped with only a warning). -/
theorem consolidated_coverage_repo_relative
    (m0 : DynamicDependencyMap) (jobs : List InstrumentedRunJob)
    (pol : FailedTestCoverage) (root : RepoPath)
    (l : List SourceCoveringTests)
    (h : (createSourceCoveringTestFromTestCoverages m0 jobs pol root).2
      = some l) :
    (∀ e ∈ l, ∃ j ∈ jobs, ∃ cov, j.coverage = some cov ∧ ∃ src ∈ cov,
        RepoPath.isRelativeTo src root = true ∧
        e.path = RepoPath.lexicallyRelative src root)
    ∧ ∀ (acc : CoverageAccumulator),
        buildSourceCoveringTests acc root =
          (acc.filter (fun p => RepoPath.isRelativeTo p.1 root)).map
            (fun p => ⟨RepoPath.lexicallyRelative p.1 root, p.2⟩) := by
  constructor
  · intro e he
    rw [createSourceCoveringTestFromTestCoverages] at h
    rcases hloop : consolidateLoop pol m0 [] jobs with ⟨m1, r1⟩
    rw [hloop] at h
    rcases r1 with _ | acc1
    · dsimp only at h
      cases h
    · dsimp only at h
      injection h with h
      subst h
      rcases buildSourceCoveringTests_mem acc1 root e he with
        ⟨src, hsrc, hrel, hpath⟩
      rcases consolidateLoop_acc_key_mem pol jobs m0 [] m1 acc1 hloop src
          e.tests hsrc with ⟨ts0, h0⟩ | ⟨j, hj, cov, hcov, hsrcmem⟩
      · simp at h0
      · exact ⟨j, hj, cov, hcov, src, hsrcmem, hrel, hpath⟩
  · intro acc
    exact buildSourceCoveringTests_eq_filterMap acc root

/-- C5 witness: the spec's out-of-repo scenario — `T1` covers `repo/a.cpp`
and the out-of-repo `opt/sdk/x.h`; the exported list holds exactly the
repo-relative `a.cpp` entry, each of whose entries traces back to an in-repo
covered source. -/
theorem consolidated_coverage_repo_relative_witness :
    (∀ e ∈ ([⟨["a.cpp"], ["T1"]⟩] : List SourceCoveringTests),
      ∃ j ∈ [(⟨"T1", .allTestsPass,
          some [["repo", "a.cpp"], ["opt", "sdk", "x.h"]]⟩ :
            InstrumentedRunJob)],
        ∃ cov, j.coverage = some cov ∧ ∃ src ∈ cov,
          RepoPath.isRelativeTo src ["repo"] = true ∧
          e.path = RepoPath.lexicallyRelative src ["repo"])
    ∧ ∀ (acc : CoverageAccumulator),
        buildSourceCoveringTests acc ["repo"] =
          (acc.filter (fun p => RepoPath.isRelativeTo p.1 ["repo"])).map
            (fun p => ⟨RepoPath.lexicallyRelative p.1 ["repo"], p.2⟩) :=
  consolidated_coverage_repo_relative []
    [⟨"T1", .allTestsPass, some [["repo", "a.cpp"], ["opt", "sdk", "x.h"]]⟩]
    .keep ["repo"] [⟨["a.cpp"], ["T1"]⟩] (by decide)

/-- C2 (amended): a RuntimeException during consolidation or persistence
propagates to the caller iff the integrity-failure policy is Abort, and
otherwise it is logged; in the failure cases and when the consolidated list
is empty the coverage replacement and the file write are skipped — the
persisted file is unchanged and "no data" (nullopt) is returned — but the map
keeps the per-job coverage removals consolidation performed before stopping,
rather than its state before ingestion began. -/
theorem updateAndSerialize_exception_policy
    (m : DynamicDependencyMap) (file : Option (List SourceCoveringTests))
    (jobs : List InstrumentedRunJob) (covPol : FailedTestCoverage)
    (intPol : IntegrityFailure) (root : RepoPath) (writeOk : Bool) :
    ((updateAndSerializeDynamicDependencyMap m file jobs covPol intPol root
        writeOk).raised = true ↔
      intPol = .abort ∧
        ((createSourceCoveringTestFromTestCoverages m jobs covPol root).2 = none
          ∨ ∃ l, (createSourceCoveringTestFromTestCoverages m jobs covPol
              root).2 = some l ∧ l ≠ [] ∧ writeOk = false))
    ∧ ((createSourceCoveringTestFromTestCoverages m jobs covPol root).2 = none →
        (updateAndSerializeDynamicDependencyMap m file jobs covPol intPol root
            writeOk).map
          = (createSourceCoveringTestFromTestCoverages m jobs covPol root).1
        ∧ (updateAndSerializeDynamicDependencyMap m file jobs covPol intPol
            root writeOk).file = file
        ∧ (updateAndSerializeDynamicDependencyMap m file jobs covPol intPol
            root writeOk).ret = none)
    ∧ (∀ l, (createSourceCoveringTestFromTestCoverages m jobs covPol root).2
          = some l →
        (l = [] →
          (updateAndSerializeDynamicDependencyMap m file jobs covPol intPol
              root writeOk).map
            = (createSourceCoveringTestFromTestCoverages m jobs covPol root).1
          ∧ (updateAndSerializeDynamicDependencyMap m file jobs covPol intPol
              root writeOk).file = file
          ∧ (updateAndSerializeDynamicDependencyMap m file jobs covPol intPol
              root writeOk).ret = none
          ∧ (updateAndSerializeDynamicDependencyMap m file jobs covPol intPol
              root writeOk).raised = false)
        ∧ (l ≠ [] →
          (updateAndSerializeDynamicDependencyMap m file jobs covPol intPol
              root writeOk).map
            = replaceSourceCoverage
                (createSourceCoveringTestFromTestCoverages m jobs covPol
                  root).1 l
          ∧ (writeOk = true →
              (updateAndSerializeDynamicDependencyMap m file jobs covPol
                  intPol root writeOk).file
                = some (exportSourceCoverage (replaceSourceCoverage
                    (createSourceCoveringTestFromTestCoverages m jobs covPol
                      root).1 l))
              ∧ (updateAndSerializeDynamicDependencyMap m file jobs covPol
                  intPol root writeOk).raised = false)
          ∧ (writeOk = false →
              (updateAndSerializeDynamicDependencyMap m file jobs covPol
                  intPol root writeOk).file = file
              ∧ (updateAndSerializeDynamicDependencyMap m file jobs covPol
                  intPol root writeOk).ret = none))) := by
  rcases hc : createSourceCoveringTestFromTestCoverages m jobs covPol root
    with ⟨m', r⟩
  rcases r with _ | l
  · refine ⟨?_, ?_, ?_⟩
    · simp [updateAndSerializeDynamicDependencyMap, hc]
    · intro _
      simp [updateAndSerializeDynamicDependencyMap, hc]
    · intro l hl
      simp [hc] at hl
  · refine ⟨?_, ?_, ?_⟩
    · rcases eq_or_ne l ([] : List SourceCoveringTests) with hl | hl
      · subst hl
        simp [updateAndSerializeDynamicDependencyMap, hc]
      · have hne : l.isEmpty = false := by
          simpa [List.isEmpty_iff] using hl
        rcases writeOk with _ | _
        · simp only [updateAndSerializeDynamicDependencyMap, hc, hne,
            Bool.false_eq_true, if_false, decide_eq_true_eq]
          constructor
          · intro h
            exact ⟨h, Or.inr ⟨l, rfl, hl, trivial⟩⟩
          · rintro ⟨h, -⟩
            exact h
        · simp [updateAndSerializeDynamicDependencyMap, hc, hne, hl]
    · intro h
      simp [hc] at h
    · intro l' hl'
      have hll : l' = l := by
        have := hl'
        simp [hc] at this
        exact this.symm
      subst hll
      constructor
      · intro hl
        subst hl
        simp [updateAndSerializeDynamicDependencyMap, hc]
      · intro hl
        have hne : l'.isEmpty = false := by
          simpa [List.isEmpty_iff] using hl
        rcases writeOk with _ | _
        · simp [updateAndSerializeDynamicDependencyMap, hc, hne]
        · simp [updateAndSerializeDynamicDependencyMap, hc, hne]

/-- The consolidation loop started on an empty map keeps the map empty:
removals on the empty map are no-ops, so the prior coverage cannot
resurface. -/
theorem consolidateLoop_map_empty (pol : FailedTestCoverage) :
    ∀ (jobs : List InstrumentedRunJob) (acc : CoverageAccumulator),
      (consolidateLoop pol [] acc jobs).1 = [] := by
  intro jobs
  induction jobs with
  | nil =>
    intro acc
    rfl
  | cons j rest ih =>
    intro acc
    rw [consolidateLoop]
    rcases hstep : consolidateJob pol [] acc j with ⟨m1, r1⟩
    have hm1 : m1 = [] := by
      have hmap := consolidateJob_map pol [] acc j
      rw [hstep] at hmap
      exact hmap
    subst hm1
    rcases r1 with _ | acc1
    · rfl
    · dsimp only
      exact ih acc1

/-- The first component of consolidation is the loop's final map. -/
theorem createSourceCoveringTestFromTestCoverages_fst
    (m : DynamicDependencyMap) (jobs : List InstrumentedRunJob)
    (pol : FailedTestCoverage) (root : RepoPath) :
    (createSourceCoveringTestFromTestCoverages m jobs pol root).1
      = (consolidateLoop pol m [] jobs).1 := by
  rw [createSourceCoveringTestFromTestCoverages]
  rcases hloop : consolidateLoop pol m [] jobs with ⟨m1, r1⟩
  rcases r1 with _ | acc1 <;> rfl

/-- The seeded sequence's resulting map, file and run-target list, written
against the ingestion outcome from the cleared state. -/
theorem seededTestSequence_state (st : RuntimeState)
    (testTargetList : List String) (excl : List ExcludedTarget)
    (jobs : List InstrumentedRunJob) (covPol : FailedTestCoverage)
    (intPol : IntegrityFailure) (root : RepoPath) (writeOk : Bool) :
    (seededTestSequence st testTargetList excl jobs covPol intPol root
        writeOk).state.map
      = (updateAndSerializeDynamicDependencyMap [] none jobs covPol intPol
          root writeOk).map
    ∧ (seededTestSequence st testTargetList excl jobs covPol intPol root
        writeOk).state.file
      = (updateAndSerializeDynamicDependencyMap [] none jobs covPol intPol
          root writeOk).file
    ∧ (seededTestSequence st testTargetList excl jobs covPol intPol root
        writeOk).runTargets
      = testTargetList.filter (fun t => !isTestTargetFullyExcluded excl t) := by
  rw [seededTestSequence]
  dsimp only
  split <;> exact ⟨rfl, rfl, rfl⟩

/-- C6: every seeded sequence runs exactly the non-excluded test targets in
its one instrumented run; the dynamic dependency map is cleared and the
persisted file removed before ingestion, so the outcome state equals the
ingestion outcome from the empty map and absent file — in particular it is
independent of the prior map and file, the prior coverage cannot resurface
through the per-job removals, and on a successful non-empty ingestion the map
is rebuilt solely from this run's consolidated list and that rebuilt map is
what is persisted. -/
theorem seeded_sequence_clears_and_rebuilds (st1 st2 : RuntimeState)
    (testTargetList : List String) (excl : List ExcludedTarget)
    (jobs : List InstrumentedRunJob) (covPol : FailedTestCoverage)
    (intPol : IntegrityFailure) (root : RepoPath) (writeOk : Bool) :
    ((seededTestSequence st1 testTargetList excl jobs covPol intPol root
        writeOk).runTargets
      = testTargetList.filter (fun t => !isTestTargetFullyExcluded excl t))
    ∧ ((seededTestSequence st1 testTargetList excl jobs covPol intPol root
          writeOk).state.map
        = (updateAndSerializeDynamicDependencyMap [] none jobs covPol intPol
            root writeOk).map
      ∧ (seededTestSequence st1 testTargetList excl jobs covPol intPol root
          writeOk).state.file
        = (updateAndSerializeDynamicDependencyMap [] none jobs covPol intPol
            root writeOk).file)
    ∧ ((seededTestSequence st1 testTargetList excl jobs covPol intPol root
          writeOk).state.map
        = (seededTestSequence st2 testTargetList excl jobs covPol intPol root
            writeOk).state.map
      ∧ (seededTestSequence st1 testTargetList excl jobs covPol intPol root
          writeOk).state.file
        = (seededTestSequence st2 testTargetList excl jobs covPol intPol root
            writeOk).state.file)
    ∧ ((consolidateLoop covPol [] [] jobs).1 = [])
    ∧ (∀ l, (createSourceCoveringTestFromTestCoverages [] jobs covPol
          root).2 = some l → l ≠ [] → writeOk = true →
        (seededTestSequence st1 testTargetList excl jobs covPol intPol root
            writeOk).state.map = replaceSourceCoverage [] l
        ∧ (seededTestSequence st1 testTargetList excl jobs covPol intPol root
            writeOk).state.file
          = some (exportSourceCoverage (replaceSourceCoverage [] l))) := by
  have h1 := seededTestSequence_state st1 testTargetList excl jobs covPol
    intPol root writeOk
  have h2 := seededTestSequence_state st2 testTargetList excl jobs covPol
    intPol root writeOk
  refine ⟨h1.2.2, ⟨h1.1, h1.2.1⟩, ⟨h1.1.trans h2.1.symm,
    h1.2.1.trans h2.2.1.symm⟩, consolidateLoop_map_empty covPol jobs [], ?_⟩
  intro l hl hne hwr
  subst hwr
  have hfst : (createSourceCoveringTestFromTestCoverages [] jobs covPol
      root).1 = [] := by
    rw [createSourceCoveringTestFromTestCoverages_fst]
    exact consolidateLoop_map_empty covPol jobs []
  have hcreate : createSourceCoveringTestFromTestCoverages [] jobs covPol
      root = ([], some l) := by
    rcases hc : createSourceCoveringTestFromTestCoverages [] jobs covPol root
      with ⟨mf, rf⟩
    rw [hc] at hfst hl
    dsimp only at hfst hl
    rw [hfst, hl]
  have hempty : l.isEmpty = false := by
    simpa [List.isEmpty_eq_false] using hne
  constructor
  · rw [h1.1, updateAndSerializeDynamicDependencyMap, hcreate]
    simp [hempty]
  · rw [h1.2.1, updateAndSerializeDynamicDependencyMap, hcreate]
    simp [hempty]

/-- C9: in both the impact-analysis and the safe-impact-analysis sequence the
drafted run's target list is GetNotCoveringTests taken as-is, never filtered
against the exclude list — so a fully excluded test target with no coverage
entry is still in the drafted run — while the selected targets are
partitioned by the exclude list first, so a fully excluded selected target is
never in the selected run. -/
theorem drafted_bypasses_exclude_list (testTargetList : List String)
    (m : DynamicDependencyMap) (instrExcl regExcl : List ExcludedTarget)
    (selected : List String) (t : String) :
    ((impactAnalysisPlan testTargetList m instrExcl
        selected).draftedRunTargets = getNotCoveringTests testTargetList m)
    ∧ ((safeImpactAnalysisPlan testTargetList m instrExcl regExcl
        selected).draftedRunTargets = getNotCoveringTests testTargetList m)
    ∧ (isTestTargetFullyExcluded instrExcl t = true →
        (t ∈ getNotCoveringTests testTargetList m →
          t ∈ (impactAnalysisPlan testTargetList m instrExcl
            selected).draftedRunTargets)
        ∧ t ∉ (impactAnalysisPlan testTargetList m instrExcl
            selected).selectedRunTargets) := by
  refine ⟨rfl, rfl, ?_⟩
  intro hexcl
  constructor
  · intro hmem
    exact hmem
  · intro hmem
    have hmem' : t ∈ selected.filter
        (fun x => !isTestTargetFullyExcluded instrExcl x) := hmem
    have hpred := (List.mem_filter.mp hmem').2
    rw [hexcl] at hpred
    cases hpred

/-- C10: the discarded set ImpactAnalysisTestSequence reports to the client
and passes to the start callback is disjoint from the drafted set: every
target the map does not cover is pruned from the discarded set before
reporting. -/
theorem discarded_report_disjoint_drafted (testTargetList : List String)
    (m : DynamicDependencyMap) (instrExcl : List ExcludedTarget)
    (selected : List String) (t : String)
    (h : t ∈ (impactAnalysisPlan testTargetList m instrExcl
      selected).reportedDiscarded) :
    t ∉ (impactAnalysisPlan testTargetList m instrExcl
      selected).draftedRunTargets := by
  intro hmem
  have h' : t ∈ (testTargetList.filter (fun x => !selected.contains x)).filter
      (fun x => !(getNotCoveringTests testTargetList m).contains x) := h
  have hpred := (List.mem_filter.mp h').2
  have hc : (getNotCoveringTests testTargetList m).contains t = true :=
    List.elem_iff.mpr hmem
  rw [hc] at hpred
  cases hpred

/-- C10 witness: with targets `T1, T2, T3`, a map covering `T1` and `T2` and
selection `T1`, the reported discarded set is `[T2]` and `T2` is not among
the drafted (not-covering) targets. -/
theorem discarded_report_disjoint_drafted_witness :
    "T2" ∉ (impactAnalysisPlan ["T1", "T2", "T3"]
      [(["a.cpp"], ["T1"]), (["b.cpp"], ["T2"])] []
      ["T1"]).draftedRunTargets :=
  discarded_report_disjoint_drafted ["T1", "T2", "T3"]
    [(["a.cpp"], ["T1"]), (["b.cpp"], ["T2"])] [] ["T1"] "T2" (by decide)

/-- Two strings with the same character data are equal. -/
theorem string_data_inj {a b : String} (h : a.data = b.data) : a = b := by
  cases a
  cases b
  exact congrArg String.mk h

/-- Sorted insertion permutes. -/
theorem insertByName_perm (d : TargetDescriptor)
    (l : List TargetDescriptor) : (insertByName d l).Perm (d :: l) := by
  induction l with
  | nil => exact List.Perm.refl _
  | cons e es ih =>
    rw [insertByName]
    split
    · exact List.Perm.refl _
    · exact (ih.cons e).trans (List.Perm.swap d e es)

/-- The sort of the TargetList constructor permutes the descriptors. -/
theorem sortDescriptorsByName_perm (l : List TargetDescriptor) :
    (sortDescriptorsByName l).Perm l := by
  induction l with
  | nil => exact List.Perm.refl _
  | cons d ds ih =>
    exact (insertByName_perm d (sortDescriptorsByName ds)).trans (ih.cons d)

/-- Sorted insertion preserves name-sortedness. -/
theorem insertByName_pairwise (d : TargetDescriptor)
    (l : List TargetDescriptor)
    (h : l.Pairwise fun a b => a.m_name.data ≤ b.m_name.data) :
    (insertByName d l).Pairwise
      fun a b => a.m_name.data ≤ b.m_name.data := by
  induction l with
  | nil =>
    rw [insertByName]
    exact List.pairwise_singleton _ _
  | cons e es ih =>
    rw [insertByName]
    rw [List.pairwise_cons] at h
    split
    · rename_i hlt
      rw [descriptorNameLt, decide_eq_true_eq] at hlt
      rw [List.pairwise_cons]
      refine ⟨?_, List.pairwise_cons.mpr h⟩
      intro x hx
      rcases List.mem_cons.mp hx with rfl | hx'
      · exact le_of_lt hlt
      · exact le_trans (le_of_lt hlt) (h.1 x hx')
    · rename_i hnlt
      rw [descriptorNameLt, decide_eq_true_eq] at hnlt
      rw [List.pairwise_cons]
      refine ⟨?_, ih h.2⟩
      intro x hx
      have hx2 := (insertByName_perm d es).mem_iff.mp hx
      rcases List.mem_cons.mp hx2 with rfl | hx'
      · exact not_lt.mp hnlt
      · exact h.1 x hx'

/-- The sort of the TargetList constructor yields a name-sorted list. -/
theorem sortDescriptorsByName_pairwise (l : List TargetDescriptor) :
    (sortDescriptorsByName l).Pairwise
      fun a b => a.m_name.data ≤ b.m_name.data := by
  induction l with
  | nil => simp [sortDescriptorsByName]
  | cons d ds ih => exact insertByName_pairwise d _ ih

/-- On a name-sorted list, absence of adjacent duplicate names means all
names are distinct: adjacent-equality detection after sorting catches every
duplicate. -/
theorem sorted_no_adjacent_dup_nodup :
    ∀ (l : List TargetDescriptor),
      l.Pairwise (fun a b => a.m_name.data ≤ b.m_name.data) →
      hasAdjacentDuplicateNames l = false →
      (l.map TargetDescriptor.m_name).Nodup := by
  intro l
  induction l with
  | nil =>
    intro _ _
    simp
  | cons d rest ih =>
    intro hp hadj
    rcases rest with _ | ⟨e, rest'⟩
    · simp
    · rw [hasAdjacentDuplicateNames, Bool.or_eq_false_iff] at hadj
      have hde : d.m_name ≠ e.m_name := by
        intro hx
        rw [hx] at hadj
        simp at hadj
      rw [List.pairwise_cons] at hp
      rw [List.map_cons, List.nodup_cons]
      refine ⟨?_, ih hp.2 hadj.2⟩
      intro hmem
      rcases List.mem_map.mp hmem with ⟨x, hx, hxname⟩
      rcases List.mem_cons.mp hx with rfl | hx'
      · exact hde hxname.symm
      · have hex : e.m_name.data ≤ x.m_name.data :=
          (List.pairwise_cons.mp hp.2).1 x hx'
        have hdx : d.m_name.data ≤ e.m_name.data :=
          hp.1 e (List.mem_cons_self _ _)
        have hxd : x.m_name.data = d.m_name.data := congrArg String.data hxname
        have heq : d.m_name.data = e.m_name.data :=
          le_antisymm hdx (hxd ▸ hex)
        exact hde (string_data_inj heq)

/-- C7: TargetList construction rejects an empty descriptor vector with
`TargetException("Target list is empty")`, and rejects any descriptor vector
with two descriptors sharing a name with
`TargetException("Target list contains duplicate targets")` — the sort makes
duplicates adjacent, so adjacent_find catches them all; the error is returned
before any target object is built, so no partial list is observable. -/
theorem targetList_rejects_empty_and_duplicate
    (descriptors : List TargetDescriptor) :
    TargetList.make ([] : List TargetDescriptor)
      = .error ⟨"Target list is empty"⟩
    ∧ (¬ (descriptors.map TargetDescriptor.m_name).Nodup →
        TargetList.make descriptors
          = .error ⟨"Target list contains duplicate targets"⟩) := by
  constructor
  · rfl
  · intro hdup
    have hne : descriptors ≠ [] := by
      rintro rfl
      exact hdup (by simp)
    have hadj : hasAdjacentDuplicateNames (sortDescriptorsByName descriptors)
        = true := by
      rcases hb : hasAdjacentDuplicateNames (sortDescriptorsByName
          descriptors) with _ | _
      · exfalso
        have hnodup := sorted_no_adjacent_dup_nodup _
          (sortDescriptorsByName_pairwise descriptors) hb
        have hperm := (sortDescriptorsByName_perm descriptors).map
          TargetDescriptor.m_name
        exact hdup (hperm.nodup_iff.mp hnodup)
      · rfl
    rw [TargetList.make, if_neg (fun hx => hne (List.isEmpty_iff.mp hx))]
    simp [hadj]

/-- A successfully constructed target list is the name-sorted descriptors
moved into target objects. -/
theorem TargetList.make_ok {descriptors : List TargetDescriptor}
    {targets : List Target} (h : TargetList.make descriptors = .ok targets) :
    targets = (sortDescriptorsByName descriptors).map
      (fun d => ⟨d.m_name⟩) := by
  rw [TargetList.make] at h
  split at h
  · cases h
  · dsimp only at h
    split at h
    · cases h
    · injection h with h
      exact h.symm

/-- C8: for a TargetList constructed from duplicate-free descriptors,
GetTarget round-trips — every name among the descriptors is found and the
returned target carries the queried name — while a name not among the
descriptors yields a null pointer from GetTarget and a
`TargetException("Couldn't find target N")` from GetTargetOrThrow. -/
theorem getTarget_roundtrip (descriptors : List TargetDescriptor)
    (targets : List Target) (h : TargetList.make descriptors = .ok targets)
    (name : String) :
    (name ∈ descriptors.map TargetDescriptor.m_name →
      ∃ t, getTarget targets name = some t ∧ t.m_name = name)
    ∧ (name ∉ descriptors.map TargetDescriptor.m_name →
      getTarget targets name = none
      ∧ getTargetOrThrow targets name
        = .error ⟨"Couldn't find target " ++ name⟩) := by
  have hmk := TargetList.make_ok h
  have hperm : (targets.map Target.m_name).Perm
      (descriptors.map TargetDescriptor.m_name) := by
    rw [hmk, List.map_map]
    exact (sortDescriptorsByName_perm descriptors).map TargetDescriptor.m_name
  constructor
  · intro hname
    have hmem : name ∈ targets.map Target.m_name := hperm.mem_iff.mpr hname
    rcases List.mem_map.mp hmem with ⟨t, ht, rfl⟩
    have hsome : (targets.find? (fun x => x.m_name == t.m_name)).isSome := by
      rw [List.find?_isSome]
      exact ⟨t, ht, by simp⟩
    rcases Option.isSome_iff_exists.mp hsome with ⟨u, hu⟩
    refine ⟨u, hu, ?_⟩
    have := List.find?_some hu
    simpa using this
  · intro hname
    have hnone : getTarget targets name = none := by
      rw [getTarget, List.find?_eq_none]
      intro x hx hbeq
      refine hname (hperm.mem_iff.mp (List.mem_map.mpr ⟨x, hx, ?_⟩))
      simpa using hbeq
    refine ⟨hnone, ?_⟩
    rw [getTargetOrThrow, hnone]

/-- C8 witness: the list built from descriptors `T2, T1` finds `T1` (sorted
lookup round-trips) and reports a missing `T9` with null and the
couldn't-find exception. -/
theorem getTarget_roundtrip_witness :
    (("T1" : String) ∈ ([⟨"T2"⟩, ⟨"T1"⟩] :
        List TargetDescriptor).map TargetDescriptor.m_name →
      ∃ t, getTarget [⟨"T1"⟩, ⟨"T2"⟩] "T1" = some t ∧ t.m_name = "T1")
    ∧ (("T1" : String) ∉ ([⟨"T2"⟩, ⟨"T1"⟩] :
        List TargetDescriptor).map TargetDescriptor.m_name →
      getTarget [⟨"T1"⟩, ⟨"T2"⟩] "T1" = none
      ∧ getTargetOrThrow [⟨"T1"⟩, ⟨"T2"⟩] "T1"
        = .error ⟨"Couldn't find target " ++ "T1"⟩) :=
  getTarget_roundtrip [⟨"T2"⟩, ⟨"T1"⟩] [⟨"T1"⟩, ⟨"T2"⟩] (by rfl) "T1"

end TestImpact


